import Mathlib

/-!
Verification development for the dynamic ABI interaction engine in
`src/Abi.tsx` (single-file React component).

We shallowly embed the core logic — parameter coercion (`parseParamValue`),
function-signature keying (`getFnKey`), ABI text parsing (`tryParseAbi`),
result formatting (`stringifyResult`) and call dispatch (`callFunction`) —
as executable Lean definitions and prove the specification's claims about
them.

Host-runtime primitives that are not part of the repository (the JSON
serializer, the IEEE-754/locale number rendering, the wallet provider) are
abstracted as oracle parameters; everything written in the component itself
is translated directly.
-/

namespace Abi

/-- Curly brace characters, named so they can be used in code and strings. -/
def lcurly : Char := Char.ofNat 123

def rcurly : Char := Char.ofNat 125

/-- The JavaScript `\s` / trim whitespace set (ECMAScript WhiteSpace and
LineTerminator code points). -/
def jsWsChar (c : Char) : Bool :=
  let n := c.toNat
  n == 32 || n == 9 || n == 10 || n == 11 || n == 12 || n == 13 ||
  n == 160 || n == 5760 || (8192 ≤ n && n ≤ 8202) || n == 8232 ||
  n == 8233 || n == 8239 || n == 8287 || n == 12288 || n == 65279

/-- Model of JavaScript `String.prototype.trim`. -/
def jsTrim (s : String) : String :=
  String.mk (((s.data.dropWhile jsWsChar).reverse.dropWhile jsWsChar).reverse)

/-- ASCII lowercasing, modelling `String.prototype.toLowerCase` on the
ASCII strings this component compares. -/
def strLower (s : String) : String :=
  String.mk (s.data.map Char.toLower)

/-- `listLeadsWith n h` holds when `n` is an initial segment of `h`. -/
def listLeadsWith : List Char → List Char → Bool
  | [], _ => true
  | _ :: _, [] => false
  | a :: as, b :: bs => a == b && listLeadsWith as bs

/-- `listHasSeg n h` holds when `n` occurs contiguously inside `h`. -/
def listHasSeg (needle : List Char) : List Char → Bool
  | [] => needle.isEmpty
  | b :: bs => listLeadsWith needle (b :: bs) || listHasSeg needle bs

/-- Model of JavaScript `hay.includes(needle)`. -/
def strIncludes (hay needle : String) : Bool :=
  listHasSeg needle.data hay.data

/-- Longest digit segment at the head of a character list. -/
def spanDigits : List Char → List Char × List Char
  | [] => ([], [])
  | c :: cs =>
    if c.isDigit then
      let p := spanDigits cs
      (c :: p.1, p.2)
    else ([], c :: cs)

/-- Numeric value of a digit string. -/
def natOfDigits (ds : List Char) : Nat :=
  ds.foldl (fun acc c => acc * 10 + (c.toNat - 48)) 0

/-- Exponent suffix of a JavaScript float literal (after the `e`/`E`):
optional sign followed by digits; an incomplete exponent contributes 0,
because `parseFloat` then only consumes the literal before the `e`. -/
def floatExpOf (t : List Char) : Int :=
  let p : Int × List Char :=
    match t with
    | '-' :: r => (-1, r)
    | '+' :: r => (1, r)
    | r => (1, r)
  let ds := (spanDigits p.2).1
  if ds.isEmpty then 0 else p.1 * (natOfDigits ds : Int)

/-- Model of JavaScript `parseFloat`, idealized over exact arithmetic:
skip leading whitespace, optional sign, then the longest decimal literal
`digits [. digits] [e sign digits]` (either digit group may be empty but
not both). The value is returned in exact scientific form `(m, e)`
denoting `m * 10^e` (see `floatValQ`). `none` models a NaN result (no
literal at all); a literal `Infinity` is also mapped to `none`, which is
indistinguishable from NaN under the only consumers in this file (the
comparisons `x < 1000000 && x > 0`, false for NaN and for every
`Infinity` case that reaches them, and the `BigInt` conversion, which
throws on both). -/
def parseFloatParts (s : String) : Option (Int × Int) :=
  let cs := s.data.dropWhile jsWsChar
  let p : Int × List Char :=
    match cs with
    | '-' :: t => (-1, t)
    | '+' :: t => (1, t)
    | t => (1, t)
  if listLeadsWith "Infinity".data p.2 then none
  else
    let ip := (spanDigits p.2).1
    let r1 := (spanDigits p.2).2
    let fp : List Char :=
      match r1 with
      | '.' :: t => (spanDigits t).1
      | _ => []
    let r2 : List Char :=
      match r1 with
      | '.' :: t => (spanDigits t).2
      | _ => r1
    if ip.isEmpty && fp.isEmpty then none
    else
      let e : Int :=
        match r2 with
        | 'e' :: t => floatExpOf t
        | 'E' :: t => floatExpOf t
        | _ => 0
      some (p.1 * (natOfDigits (ip ++ fp) : Int), e - (fp.length : Int))

/-- The rational number denoted by an exact scientific pair. -/
def floatValQ (p : Int × Int) : ℚ :=
  (p.1 : ℚ) * (10 : ℚ) ^ p.2

/-- The parsed value of a float literal as an exact rational. -/
def parseFloatQ (s : String) : Option ℚ :=
  (parseFloatParts s).map floatValQ

/-- The comparison `x < 1000000 && x > 0` of the source, decided exactly
on the scientific form. -/
def posLtMillionB (p : Int × Int) : Bool :=
  (if 0 ≤ p.2 then decide (p.1 * (10 : Int) ^ p.2.toNat < 1000000)
   else decide (p.1 < 1000000 * (10 : Int) ^ (-p.2).toNat)) &&
  decide (0 < p.1)

/-- Model of `s.startsWith(pre)` (JavaScript `String.prototype.startsWith`). -/
def strStarts (s pre : String) : Bool :=
  listLeadsWith pre.data s.data

/-- The hard-coded USDT mainnet address, lowercased, as it appears in the
source's comparisons. -/
def usdtLower : String := "0xdac17f958d2ee523a2206206994597c13d831ec7"

/-- `decimals` selection (lines 635 and 748-756 of the source): 6 when the
active contract address equals the USDT literal case-insensitively, else 18. -/
def getDecimals (contractAddress : String) : Nat :=
  if strLower contractAddress == usdtLower then 6 else 18

/-- A coerced call argument: the source's `string | boolean`. -/
inductive Coerced where
  | str (s : String)
  | bool (b : Bool)
deriving DecidableEq, Repr

/-- The amount-keyword test on the parameter name (source lines 624-630).
`none` models an `undefined` name and `some ""` an empty one; both are
falsy, so neither is an amount parameter. -/
def isAmountParam : Option String → Bool
  | none => false
  | some p =>
    !(p == "") &&
    (strIncludes (strLower p) "amount" || strIncludes (strLower p) "value" ||
     strLower p == "wad" || strIncludes (strLower p) "qty" ||
     strIncludes (strLower p) "quantity")

/-- The human-readable-quantity guard (source line 634): the raw text
contains a decimal point, or parses as a positive number strictly below
1,000,000. -/
def amountGuard (raw : String) : Bool :=
  strIncludes raw "." ||
  (match parseFloatParts raw with
   | some p => posLtMillionB p
   | none => false)

/-- The scaled-amount computation (source lines 635-639),
`BigInt(Math.floor(parseFloat(raw) * Math.pow(10, decimals))).toString()`.
The host performs the multiplication and floor in IEEE-754 doubles with an
implementation-approximated `Math.pow`; this embedding idealizes it as
exact rational arithmetic, and no claim that rests on the difference is
settled against it. `BigInt` throws a `RangeError` when `Math.floor`
produced `NaN` or `Infinity`, i.e. exactly when `parseFloat` did. -/
def scaledAmount (contractAddress raw : String) : Except String String :=
  match parseFloatParts raw with
  | none => Except.error "Cannot convert to a BigInt"
  | some p =>
    let k : Int := p.2 + (getDecimals contractAddress : Int)
    Except.ok (toString
      (if 0 ≤ k then p.1 * (10 : Int) ^ k.toNat
       else Int.fdiv p.1 ((10 : Int) ^ (-k).toNat)))

/-- The parameter coercion engine, translated from `parseParamValue`
(source lines 617-657). Integer types reject blank input, apply the
amount-scaling heuristic when both the name keyword test and the
human-readable guard pass, and otherwise pass the raw text through; every
other type is a pass-through except `bool`. -/
def parseParamValue (contractAddress : String) (type raw : String)
    (paramName : Option String) : Except String Coerced :=
  if strStarts type "uint" || strStarts type "int" then
    if jsTrim raw == "" then Except.error "Empty value"
    else if isAmountParam paramName && amountGuard raw then
      (scaledAmount contractAddress raw).map Coerced.str
    else Except.ok (Coerced.str raw)
  else if type == "address" then Except.ok (Coerced.str raw)
  else if type == "bool" then
    let v := strLower raw
    Except.ok (Coerced.bool (v == "true" || v == "1" || v == "yes"))
  else if type == "string" then Except.ok (Coerced.str raw)
  else if strStarts type "bytes" then Except.ok (Coerced.str raw)
  else Except.ok (Coerced.str raw)

/-- One ABI parameter, per the source's `AbiInput` type; `name` is optional
because parsed JSON may omit it even though the TS type declares it. -/
structure AbiInput where
  name : Option String
  type : String
deriving DecidableEq, Repr

/-- One ABI entry, per the source's `AbiItem` type. -/
structure AbiItem where
  type : String
  name : Option String := none
  inputs : Option (List AbiInput) := none
  outputs : Option (List AbiInput) := none
  stateMutability : Option String := none
deriving DecidableEq, Repr

/-- Function-signature keying, translated from `getFnKey`
(source lines 604-608): `name(type1,type2,...)`, with an absent name
treated as `""` and an absent input list as `[]`. -/
def getFnKey (fn : AbiItem) : String :=
  let name := fn.name.getD ""
  let types := String.intercalate "," ((fn.inputs.getD []).map (·.type))
  name ++ "(" ++ types ++ ")"

/-- The specification's description of the key (§3 of the spec): the
input types joined by commas, written as a standalone recursive join to be
compared with the source's `join(",")`. -/
def joinComma : List String → String
  | [] => ""
  | [t] => t
  | t :: u :: rest => t ++ "," ++ joinComma (u :: rest)

/-! ### JSON values and `JSON.parse` -/

/-- Parsed JSON values. Numbers keep their lexeme: the component never
computes with parsed numbers, so their only observable is their text. -/
inductive Json where
  | null
  | bool (b : Bool)
  | num (lexeme : String)
  | str (s : String)
  | arr (elems : List Json)
  | obj (fields : List (String × Json))

/-- Property lookup on an object's field list; with duplicate keys the
last occurrence wins, as in a JavaScript object built by `JSON.parse`. -/
def lookupField : List (String × Json) → String → Option Json
  | [], _ => none
  | kv :: rest, key =>
    match lookupField rest key with
    | some r => some r
    | none => if kv.1 == key then some kv.2 else none

/-- The `a.type === "function"` test used to filter the catalog
(source line 601); on a non-object element the property access yields
`undefined`, which is not strictly equal to a string. -/
def isFunctionEntry (j : Json) : Bool :=
  match j with
  | Json.obj fields =>
    match lookupField fields "type" with
    | some (Json.str t) => t == "function"
    | _ => false
  | _ => false

/-- The derived `functions` list (source line 601). -/
def functionsOf (abi : List Json) : List Json :=
  abi.filter isFunctionEntry

/-- The trailing-comma repair, modelling the global regex replacement
`abiText.replace(/,\s*([\]}])/g, '$1')` (source line 580): a left-to-right
single pass that, at a comma followed by (possibly empty) whitespace and
then a closing bracket or brace, emits just the closer and resumes after
it. The scan is written with an explicit pending buffer (`pend`, stored
reversed) holding a comma and the whitespace seen since it, which is
discarded when the next significant character is a closer and flushed
verbatim otherwise; this is the same left-to-right, non-overlapping
traversal the regex engine performs. -/
def stripTCAux : List Char → List Char → List Char
  | pend, [] => pend.reverse
  | pend, c :: rest =>
    if pend.isEmpty then
      if c == ',' then stripTCAux [c] rest
      else c :: stripTCAux [] rest
    else
      if c == ']' || c == rcurly then c :: stripTCAux [] rest
      else if jsWsChar c then stripTCAux (c :: pend) rest
      else if c == ',' then pend.reverse ++ stripTCAux [c] rest
      else pend.reverse ++ (c :: stripTCAux [] rest)

/-- String-level wrapper for the trailing-comma repair. -/
def stripTrailingCommas (s : String) : String :=
  String.mk (stripTCAux [] s.data)

/-- Modelled from the claim's words (C5): strip only those commas whose
immediately following character is a closing bracket or brace. Used solely
to compare the claim's repair with the source's whitespace-tolerant one. -/
def stripImmediateCommas : List Char → List Char
  | [] => []
  | c :: rest =>
    if c == ',' then
      match rest with
      | d :: _ =>
        if d == ']' || d == rcurly then stripImmediateCommas rest
        else c :: stripImmediateCommas rest
      | [] => [c]
    else c :: stripImmediateCommas rest

/-- JSON insignificant whitespace (strict JSON, not the JS `\s` set). -/
def skipJsonWs (cs : List Char) : List Char :=
  cs.dropWhile (fun c => c == ' ' || c == '\t' || c == '\n' || c == '\r')

/-- Hex digit value, for `\uXXXX` escapes. -/
def hexVal (c : Char) : Option Nat :=
  if '0' ≤ c && c ≤ '9' then some (c.toNat - 48)
  else if 'a' ≤ c && c ≤ 'f' then some (c.toNat - 87)
  else if 'A' ≤ c && c ≤ 'F' then some (c.toNat - 55)
  else none

/-- JSON string body parser (after the opening quote): handles the escape
sequences of strict JSON and rejects raw control characters. -/
def parseJString : List Char → Except String (String × List Char)
  | [] => Except.error "Unterminated string in JSON"
  | c :: rest =>
    if c == '"' then Except.ok ("", rest)
    else if c == '\\' then
      match rest with
      | [] => Except.error "Unterminated string in JSON"
      | e :: rest2 =>
        let esc : Except String Char :=
          if e == '"' then Except.ok '"'
          else if e == '\\' then Except.ok '\\'
          else if e == '/' then Except.ok '/'
          else if e == 'b' then Except.ok (Char.ofNat 8)
          else if e == 'f' then Except.ok (Char.ofNat 12)
          else if e == 'n' then Except.ok '\n'
          else if e == 'r' then Except.ok '\r'
          else if e == 't' then Except.ok '\t'
          else Except.error "Bad escaped character in JSON"
        if e == 'u' then
          match rest2 with
          | h1 :: h2 :: h3 :: h4 :: rest3 =>
            match hexVal h1, hexVal h2, hexVal h3, hexVal h4 with
            | some a, some b, some c1, some d =>
              match parseJString rest3 with
              | Except.ok p =>
                Except.ok
                  (String.mk (Char.ofNat (((a * 16 + b) * 16 + c1) * 16 + d) :: p.1.data), p.2)
              | Except.error m => Except.error m
            | _, _, _, _ => Except.error "Bad Unicode escape in JSON"
          | _ => Except.error "Bad Unicode escape in JSON"
        else
          match esc with
          | Except.error m => Except.error m
          | Except.ok ch =>
            match parseJString rest2 with
            | Except.ok p => Except.ok (String.mk (ch :: p.1.data), p.2)
            | Except.error m => Except.error m
    else if c.toNat < 32 then Except.error "Bad control character in JSON string"
    else
      match parseJString rest with
      | Except.ok p => Except.ok (String.mk (c :: p.1.data), p.2)
      | Except.error m => Except.error m

/-- JSON number parser, strict grammar
`-? (0 | [1-9]digits) (. digits+)? ([eE][+-]?digits+)?`; returns the
lexeme. -/
def parseJNumber (cs : List Char) : Except String (String × List Char) :=
  let sgn : List Char × List Char :=
    match cs with
    | '-' :: t => (['-'], t)
    | t => ([], t)
  let ip := (spanDigits sgn.2).1
  let r1 := (spanDigits sgn.2).2
  if ip.isEmpty then Except.error "No number after minus sign in JSON"
  else if ip.length > 1 && ip.head? == some '0' then
    Except.error "Unexpected number in JSON"
  else
    let fracRes : Except String (List Char × List Char) :=
      match r1 with
      | '.' :: t =>
        let fp := (spanDigits t).1
        if fp.isEmpty then Except.error "Unterminated fractional number in JSON"
        else Except.ok ('.' :: fp, (spanDigits t).2)
      | _ => Except.ok ([], r1)
    match fracRes with
    | Except.error m => Except.error m
    | Except.ok fr =>
      let expRes : Except String (List Char × List Char) :=
        match fr.2 with
        | 'e' :: t =>
          match t with
          | '-' :: u =>
            let ds := (spanDigits u).1
            if ds.isEmpty then Except.error "Exponent part is missing a number in JSON"
            else Except.ok ('e' :: '-' :: ds, (spanDigits u).2)
          | '+' :: u =>
            let ds := (spanDigits u).1
            if ds.isEmpty then Except.error "Exponent part is missing a number in JSON"
            else Except.ok ('e' :: '+' :: ds, (spanDigits u).2)
          | u =>
            let ds := (spanDigits u).1
            if ds.isEmpty then Except.error "Exponent part is missing a number in JSON"
            else Except.ok ('e' :: ds, (spanDigits u).2)
        | 'E' :: t =>
          match t with
          | '-' :: u =>
            let ds := (spanDigits u).1
            if ds.isEmpty then Except.error "Exponent part is missing a number in JSON"
            else Except.ok ('E' :: '-' :: ds, (spanDigits u).2)
          | '+' :: u =>
            let ds := (spanDigits u).1
            if ds.isEmpty then Except.error "Exponent part is missing a number in JSON"
            else Except.ok ('E' :: '+' :: ds, (spanDigits u).2)
          | u =>
            let ds := (spanDigits u).1
            if ds.isEmpty then Except.error "Exponent part is missing a number in JSON"
            else Except.ok ('E' :: ds, (spanDigits u).2)
        | _ => Except.ok ([], fr.2)
      match expRes with
      | Except.error m => Except.error m
      | Except.ok ex =>
        Except.ok (String.mk (sgn.1 ++ ip ++ fr.1 ++ ex.1), ex.2)

/-- What one step of the JSON parser produces: a single value, the items
of an array being collected, or the fields of an object being collected. -/
inductive JOut where
  | val (j : Json)
  | items (xs : List Json)
  | fields (kvs : List (String × Json))

/-- Which production the parser is currently reading. -/
inductive JMode where
  | value
  | items
  | fields

/-- Recursive descent parser for strict JSON, fuel-indexed so that it is
structurally recursive (and hence evaluates by kernel reduction). The
modes correspond to a JSON value, the element list of a non-empty array,
and the member list of a non-empty object. -/
def parseJ : Nat → JMode → List Char → Except String (JOut × List Char)
  | 0, _, _ => Except.error "JSON input is nested too deeply"
  | Nat.succ fuel, JMode.value, cs0 =>
    match skipJsonWs cs0 with
    | [] => Except.error "Unexpected end of JSON input"
    | c :: rest =>
      if c == 'n' then
        if listLeadsWith "ull".data rest then
          Except.ok (JOut.val Json.null, rest.drop 3)
        else Except.error "Unexpected token in JSON"
      else if c == 't' then
        if listLeadsWith "rue".data rest then
          Except.ok (JOut.val (Json.bool true), rest.drop 3)
        else Except.error "Unexpected token in JSON"
      else if c == 'f' then
        if listLeadsWith "alse".data rest then
          Except.ok (JOut.val (Json.bool false), rest.drop 4)
        else Except.error "Unexpected token in JSON"
      else if c == '"' then
        match parseJString rest with
        | Except.ok p => Except.ok (JOut.val (Json.str p.1), p.2)
        | Except.error m => Except.error m
      else if c == '[' then
        match skipJsonWs rest with
        | d :: tl =>
          if d == ']' then Except.ok (JOut.val (Json.arr []), tl)
          else
            match parseJ fuel JMode.items (d :: tl) with
            | Except.ok (JOut.items xs, r) => Except.ok (JOut.val (Json.arr xs), r)
            | Except.ok _ => Except.error "unreachable parser state"
            | Except.error m => Except.error m
        | [] => Except.error "Unexpected end of JSON input"
      else if c == lcurly then
        match skipJsonWs rest with
        | d :: tl =>
          if d == rcurly then Except.ok (JOut.val (Json.obj []), tl)
          else
            match parseJ fuel JMode.fields (d :: tl) with
            | Except.ok (JOut.fields kvs, r) => Except.ok (JOut.val (Json.obj kvs), r)
            | Except.ok _ => Except.error "unreachable parser state"
            | Except.error m => Except.error m
        | [] => Except.error "Unexpected end of JSON input"
      else if c == '-' || c.isDigit then
        match parseJNumber (c :: rest) with
        | Except.ok p => Except.ok (JOut.val (Json.num p.1), p.2)
        | Except.error m => Except.error m
      else Except.error "Unexpected token in JSON"
  | Nat.succ fuel, JMode.items, cs0 =>
    match parseJ fuel JMode.value cs0 with
    | Except.error m => Except.error m
    | Except.ok (JOut.val v, r) =>
      match skipJsonWs r with
      | d :: tl =>
        if d == ',' then
          match parseJ fuel JMode.items tl with
          | Except.ok (JOut.items xs, r2) => Except.ok (JOut.items (v :: xs), r2)
          | Except.ok _ => Except.error "unreachable parser state"
          | Except.error m => Except.error m
        else if d == ']' then Except.ok (JOut.items [v], tl)
        else Except.error "Expected comma or closing bracket in JSON array"
      | [] => Except.error "Unexpected end of JSON input"
    | Except.ok _ => Except.error "unreachable parser state"
  | Nat.succ fuel, JMode.fields, cs0 =>
    match skipJsonWs cs0 with
    | c :: rest =>
      if c == '"' then
        match parseJString rest with
        | Except.error m => Except.error m
        | Except.ok (k, r1) =>
          match skipJsonWs r1 with
          | d :: r2 =>
            if d == ':' then
              match parseJ fuel JMode.value r2 with
              | Except.error m => Except.error m
              | Except.ok (JOut.val v, r3) =>
                match skipJsonWs r3 with
                | e :: r4 =>
                  if e == ',' then
                    match parseJ fuel JMode.fields r4 with
                    | Except.ok (JOut.fields kvs, r5) =>
                      Except.ok (JOut.fields ((k, v) :: kvs), r5)
                    | Except.ok _ => Except.error "unreachable parser state"
                    | Except.error m => Except.error m
                  else if e == rcurly then Except.ok (JOut.fields [(k, v)], r4)
                  else Except.error "Expected comma or closing brace in JSON object"
                | [] => Except.error "Unexpected end of JSON input"
              | Except.ok _ => Except.error "unreachable parser state"
            else Except.error "Expected colon in JSON object"
          | [] => Except.error "Unexpected end of JSON input"
      else Except.error "Expected property name in JSON object"
    | [] => Except.error "Unexpected end of JSON input"

/-- Model of `JSON.parse`: parse one JSON value and require that only
whitespace follows. The fuel `2 * length + 4` exceeds the recursion depth
reachable on the input, since the parser consumes at least one character
for every two fuel decrements along any call chain. -/
def jsonParse (s : String) : Except String Json :=
  match parseJ (2 * s.length + 4) JMode.value s.data with
  | Except.error m => Except.error m
  | Except.ok (JOut.val v, rest) =>
    if (skipJsonWs rest).isEmpty then Except.ok v
    else Except.error "Unexpected non-whitespace character after JSON data"
  | Except.ok _ => Except.error "unreachable parser state"

/-! ### Component state, parsing into the catalog -/

/-- The component's state fields (source lines 166-187). `provider` and
`signer` are opaque handle tokens; `hasEthereum` models the presence of
`window.ethereum`; `paramsState` is the flat parameter field map;
`now` is the timestamp string `new Date().toLocaleString()` prepends to a
log entry. -/
structure AppState where
  provider : Option String
  signer : Option String
  account : Option String
  chainId : Option String
  hasEthereum : Bool
  abiText : String
  contractAddress : String
  abi : List Json
  parseError : Option String
  paramsState : String → Option String
  logs : List String
  now : String

/-- `pushLog` (source lines 800-802): prepend a timestamped entry and keep
at most 200. -/
def pushLog (s : AppState) (msg : String) : AppState :=
  { s with logs := ((s.now ++ " - " ++ msg) :: s.logs).take 200 }

/-- The parse part of `tryParseAbi` (source lines 580-582): repair
trailing commas, `JSON.parse`, require a top-level array. -/
def abiParseResult (txt : String) : Except String (List Json) :=
  match jsonParse (stripTrailingCommas txt) with
  | Except.ok (Json.arr xs) => Except.ok xs
  | Except.ok _ => Except.error "ABI is not an array"
  | Except.error m => Except.error m

/-- `tryParseAbi` (source lines 577-598): on success replace the catalog
wholesale and clear the parse error; on any failure record the message and
reset the catalog to the empty list. -/
def tryParseAbi (s : AppState) : AppState :=
  match abiParseResult s.abiText with
  | Except.ok xs =>
    pushLog { s with abi := xs, parseError := none } "ABI parsed successfully"
  | Except.error m =>
    pushLog { s with parseError := some m, abi := [] } ("ABI parsing failed: " ++ m)

/-! ### Result formatting -/

/-- A JavaScript value as returned by a contract call. A number is carried
by its string image (the component never computes with them), and an
object by its `toString()` image. -/
inductive JsValue where
  | jNull
  | jUndef
  | jBool (b : Bool)
  | jNum (numRepr : String)
  | jBigInt (i : ℤ)
  | jStr (s : String)
  | jArr (xs : List JsValue)
  | jObj (toStr : String)

/-- Host primitives used by `stringifyResult` that are not code of this
repository: the two `JSON.stringify` call sites (which may throw, hence
`Except`) and the composite `Number(raw)/Math.pow(10,d)` +
`toLocaleString('en-US', maximumFractionDigits 6)` rendering, an IEEE-754
double and locale computation abstracted as an arbitrary total function. -/
structure HostStr where
  stringifyStrings : List String → Except String String
  stringifyWithBigintReplacer : JsValue → Except String String
  convertFormat : String → Nat → String

/-- Model of `"_isBigNumber" in res || "toString" in res` (source
line 775): `in` consults the prototype chain and `toString` is inherited
from `Object.prototype`, so the test holds for every object. -/
def hasToStringProp (_ : JsValue) : Bool := true

mutual

/-- `String(res)` on our value universe, the generic stringification the
formatter falls back to; arrays join their elements with commas, `null`
and `undefined` elements rendering as empty (JavaScript
`Array.prototype.toString`). -/
def jsToString : JsValue → String
  | JsValue.jNull => "null"
  | JsValue.jUndef => "undefined"
  | JsValue.jBool b => cond b "true" "false"
  | JsValue.jNum r => r
  | JsValue.jBigInt i => toString i
  | JsValue.jStr s => s
  | JsValue.jObj t => t
  | JsValue.jArr xs => jsToStringItems xs

/-- Comma join for `jsToString` on arrays. -/
def jsToStringItems : List JsValue → String
  | [] => ""
  | [JsValue.jNull] => ""
  | [JsValue.jUndef] => ""
  | [v] => jsToString v
  | JsValue.jNull :: w :: rest => "," ++ jsToStringItems (w :: rest)
  | JsValue.jUndef :: w :: rest => "," ++ jsToStringItems (w :: rest)
  | v :: w :: rest => jsToString v ++ "," ++ jsToStringItems (w :: rest)

end

/-- The balance/supply name test (source lines 762-765 and 778-781). -/
def isBalanceName : Option String → Bool
  | none => false
  | some f =>
    !(f == "") &&
    (strIncludes (strLower f) "balance" || strIncludes (strLower f) "supply")

mutual

/-- The result formatter, translated from `stringifyResult`
(source lines 740-798). Each invocation is wrapped in its own
try/catch, so a failing serializer call falls back to `String(res)` for
the value of that invocation only. -/
def stringifyResult (h : HostStr) (contractAddress : String) :
    JsValue → Option String → String
  | JsValue.jArr xs, fname =>
    match h.stringifyStrings (stringifyItems h contractAddress xs fname) with
    | Except.ok s => s
    | Except.error _ => jsToString (JsValue.jArr xs)
  | JsValue.jBigInt i, fname =>
    let rawValue := toString i
    if isBalanceName fname then
      h.convertFormat rawValue (getDecimals contractAddress) ++
        " (raw: " ++ rawValue ++ ")"
    else rawValue
  | JsValue.jObj t, fname =>
    if hasToStringProp (JsValue.jObj t) then
      if isBalanceName fname then
        h.convertFormat t (getDecimals contractAddress) ++ " (raw: " ++ t ++ ")"
      else t
    else
      match h.stringifyWithBigintReplacer (JsValue.jObj t) with
      | Except.ok s => s
      | Except.error _ => jsToString (JsValue.jObj t)
  | v, _ => jsToString v

/-- The recursive per-element formatting of an array result
(source line 745). -/
def stringifyItems (h : HostStr) (contractAddress : String) :
    List JsValue → Option String → List String
  | [], _ => []
  | v :: vs, fname =>
    stringifyResult h contractAddress v fname ::
      stringifyItems h contractAddress vs fname

end

/-- The try-block body of `stringifyResult` in isolation: everything the
source computes between `try {` and `} catch`, with the possible failure
points (the serializer calls) surfaced in the `Except`. -/
def stringifyTry (h : HostStr) (contractAddress : String) :
    JsValue → Option String → Except String String
  | JsValue.jArr xs, fname =>
    h.stringifyStrings (stringifyItems h contractAddress xs fname)
  | JsValue.jBigInt i, fname =>
    let rawValue := toString i
    if isBalanceName fname then
      Except.ok (h.convertFormat rawValue (getDecimals contractAddress) ++
        " (raw: " ++ rawValue ++ ")")
    else Except.ok rawValue
  | JsValue.jObj t, fname =>
    if hasToStringProp (JsValue.jObj t) then
      if isBalanceName fname then
        Except.ok (h.convertFormat t (getDecimals contractAddress) ++
          " (raw: " ++ t ++ ")")
      else Except.ok t
    else h.stringifyWithBigintReplacer (JsValue.jObj t)
  | v, _ => Except.ok (jsToString v)

/-! ### The call dispatcher -/

/-- Externally observable actions of one invocation, in program order:
toasts, the provider/signer refresh, contract construction (recording
which handle the contract is bound to), the read call, the transaction
send, and the confirmation wait. -/
inductive Effect where
  | toastLoading (msg : String)
  | newBrowserProvider
  | getSigner
  | mkContract (readOnly : Bool)
  | readCall (fnName : String) (args : List Coerced)
  | sendTx (fnName : String) (args : List Coerced)
  | waitConfirm (n : Nat)
  | toastSuccess (msg : String)
  | toastError (msg : String)
deriving DecidableEq, Repr

/-- How an invocation settles. -/
inductive Outcome where
  | readSuccess (display : String)
  | writeSuccess
  | failure (msg : String)
deriving DecidableEq, Repr

/-- A transaction receipt as logged (`blockNumber`/`status` rendered to
text; the component only interpolates them into a log line). -/
structure Receipt where
  blockNumber : String
  status : String
deriving DecidableEq, Repr

/-- Results of the external wallet/contract interactions of a single
invocation: the signer fetch, the read call, the transaction send and the
confirmation wait; each may reject with an error message. `none` for the
receipt models `wait` resolving to `null`. -/
structure DispatchOracle where
  signerResult : Except String Unit
  callResult : Except String JsValue
  sendResult : Except String String
  waitResult : Except String (Option Receipt)

/-- `undefined`-tolerant interpolation of an optional name into a
template string. -/
def optStr : Option String → String
  | none => "undefined"
  | some s => s

/-- First line of an error message (`message.split('\n')[0]`). -/
def strFirstLine (s : String) : String :=
  String.mk (s.data.takeWhile (fun c => !(c == '\n')))

/-- `s.slice(0, n)` (code-unit granularity approximated by characters). -/
def strSlice (s : String) (n : Nat) : String :=
  String.mk (s.data.take n)

/-- `s.length > n`. -/
def strLengthGt (s : String) (n : Nat) : Bool :=
  decide (n < s.data.length)

/-- The error-message classification of the catch block
(source lines 720-736), producing the toast text. -/
def classifyToast (msg : String) : String :=
  if strIncludes msg "user rejected" || strIncludes msg "User denied" then
    "User cancelled transaction"
  else if strIncludes msg "insufficient funds" then "Insufficient funds"
  else if strIncludes msg "network changed" || strIncludes msg "NETWORK_ERROR" then
    "Network changed, please retry"
  else if strIncludes msg "wrong network" || strIncludes msg "chain mismatch" then
    "Contract not on current network, please switch"
  else
    let errorMsg := strFirstLine msg
    "Call failed: " ++
      (if strLengthGt errorMsg 100 then strSlice errorMsg 100 ++ "..." else errorMsg)

/-- The catch block of `callFunction` (source lines 716-737): log the
failure, emit the classified error toast, and settle as a failure. The
component state is otherwise untouched. -/
def catchCall (s : AppState) (effs : List Effect) (msg : String) :
    AppState × List Effect × Outcome :=
  (pushLog s ("Call failed: " ++ msg),
   effs ++ [Effect.toastError (classifyToast msg)],
   Outcome.failure msg)

/-- Argument collection (source lines 677-681): for each declared input,
read the raw text from the field map (absent key means `""`) and coerce
it; the first coercion error aborts the whole collection, as a thrown
exception aborts `Array.prototype.map`. -/
def coerceArgs (s : AppState) (fnKey : String) :
    List AbiInput → Nat → Except String (List Coerced)
  | [], _ => Except.ok []
  | input :: rest, idx =>
    let key := fnKey ++ "#" ++ toString idx
    let raw := (s.paramsState key).getD ""
    match parseParamValue s.contractAddress input.type raw input.name with
    | Except.error e => Except.error e
    | Except.ok v =>
      match coerceArgs s fnKey rest (idx + 1) with
      | Except.error e => Except.error e
      | Except.ok vs => Except.ok (v :: vs)

/-- The mutability classification (source line 661). -/
def isReadOnlyFn (fn : AbiItem) : Bool :=
  fn.stateMutability == some "view" || fn.stateMutability == some "pure"

/-- The call dispatcher, translated from `callFunction`
(source lines 660-738): precondition checks, the unconditional
provider/signer refresh, argument coercion, contract construction bound
to the provider (read) or signer (write), then either the read call or
the transaction send followed by `wait(1)`; every thrown error lands in
the catch block. Returns the updated state, the effect trace, and the
settled outcome. -/
def callFunction (h : HostStr) (s : AppState) (fn : AbiItem)
    (o : DispatchOracle) : AppState × List Effect × Outcome :=
  let isReadOnly := isReadOnlyFn fn
  let effs0 := [Effect.toastLoading
    (if isReadOnly then "Querying " ++ optStr fn.name ++ "..."
     else "Sending transaction " ++ optStr fn.name ++ "...")]
  if !s.hasEthereum then catchCall s effs0 "Please install MetaMask first"
  else if s.account == none then catchCall s effs0 "Please connect wallet first"
  else if s.contractAddress == "" then catchCall s effs0 "Please enter contract address"
  else
    let effs1 := effs0 ++ [Effect.newBrowserProvider, Effect.getSigner]
    match o.signerResult with
    | Except.error e => catchCall s effs1 e
    | Except.ok _ =>
      match coerceArgs s (getFnKey fn) (fn.inputs.getD []) 0 with
      | Except.error e => catchCall s effs1 e
      | Except.ok args =>
        let effs2 := effs1 ++ [Effect.mkContract isReadOnly]
        if isReadOnly then
          let effs3 := effs2 ++ [Effect.readCall (optStr fn.name) args]
          match o.callResult with
          | Except.error e => catchCall s effs3 e
          | Except.ok res =>
            let result := stringifyResult h s.contractAddress res fn.name
            (pushLog s ("Function " ++ optStr fn.name ++ " result: " ++ result),
             effs3 ++ [Effect.toastSuccess ("Query success! Result: " ++
               (if strLengthGt result 50 then strSlice result 50 ++ "..." else result))],
             Outcome.readSuccess result)
        else
          let effs3 := effs2 ++
            [Effect.toastLoading "Waiting for user confirmation...",
             Effect.sendTx (optStr fn.name) args]
          match o.sendResult with
          | Except.error e => catchCall s effs3 e
          | Except.ok hash =>
            let s1 := pushLog s ("Transaction sent, txHash: " ++ hash)
            let effs4 := effs3 ++
              [Effect.toastLoading ("Transaction sent, waiting for confirmation... (" ++
                 strSlice hash 10 ++ "...)"),
               Effect.waitConfirm 1]
            match o.waitResult with
            | Except.error e => catchCall s1 effs4 e
            | Except.ok rcpt =>
              let s2 := pushLog s1 ("Transaction confirmed: blockNumber=" ++
                (match rcpt with
                 | none => "undefined"
                 | some r => r.blockNumber) ++ ", status=" ++
                (match rcpt with
                 | none => "undefined"
                 | some r => r.status))
              (s2, effs4 ++ [Effect.toastSuccess "Transaction successful!"],
               Outcome.writeSuccess)

/-! ### Helper predicates on effect traces, and concrete fixtures -/

/-- Transaction-path effects: sending a transaction or waiting for its
confirmation. -/
def isWriteEff : Effect → Bool
  | Effect.sendTx _ _ => true
  | Effect.waitConfirm _ => true
  | _ => false

/-- Read-path effect: the read-only contract call. -/
def isReadEff : Effect → Bool
  | Effect.readCall _ _ => true
  | _ => false

/-- The handle-binding flags of the contract constructions in a trace
(`true` = bound to the read-only provider, `false` = bound to the
signer). -/
def mkContractFlags (effs : List Effect) : List Bool :=
  effs.filterMap (fun e =>
    match e with
    | Effect.mkContract b => some b
    | _ => none)

/-- The confirmation counts of the `wait` calls in a trace. -/
def waitCounts (effs : List Effect) : List Nat :=
  effs.filterMap (fun e =>
    match e with
    | Effect.waitConfirm n => some n
    | _ => none)

/-- A spec-side failure check for parse results. -/
def isErr (r : Except String Json) : Bool :=
  match r with
  | Except.error _ => true
  | Except.ok _ => false

/-- An empty parameter field map. -/
def emptyParams : String → Option String := fun _ => none

/-- A connected session with an installed wallet, a non-empty non-USDT
contract address, and no parameters filled in. -/
def baseState : AppState where
  provider := none
  signer := none
  account := some "0xabc"
  chainId := some "0x1"
  hasEthereum := true
  abiText := "[]"
  contractAddress := "0x1111111111111111111111111111111111111111"
  abi := []
  parseError := none
  paramsState := emptyParams
  logs := []
  now := "t0"

/-- A `view` catalog entry with one address input. -/
def viewFn : AbiItem where
  type := "function"
  name := some "balanceOf"
  inputs := some [{ name := some "owner", type := "address" }]
  stateMutability := some "view"

/-- A catalog entry without a `stateMutability` tag (defaults to the
write path), with an address and a uint256 `amount` input. -/
def writeFn : AbiItem where
  type := "function"
  name := some "transfer"
  inputs := some [{ name := some "to", type := "address" },
                  { name := some "amount", type := "uint256" }]

/-- A parameter field map filling both `transfer` inputs. -/
def filledParams : String → Option String := fun k =>
  if k == "transfer(address,uint256)#0" then some "0xdest"
  else if k == "transfer(address,uint256)#1" then some "2000000"
  else none

/-- `baseState` with the `transfer` parameters filled in. -/
def writeState : AppState := { baseState with paramsState := filledParams }

/-- An oracle where every external interaction succeeds. -/
def okOracle : DispatchOracle where
  signerResult := Except.ok ()
  callResult := Except.ok (JsValue.jStr "ok")
  sendResult := Except.ok "0xhash1234567890"
  waitResult := Except.ok (some { blockNumber := "1", status := "1" })

/-- An oracle where the contract interactions reject. -/
def rejOracle : DispatchOracle :=
  { okOracle with
    callResult := Except.error "missing revert data"
    sendResult := Except.error "user rejected action" }

/-- A concrete host-primitive bundle for witnesses. -/
def idHost : HostStr where
  stringifyStrings := fun l => Except.ok (String.intercalate "|" l)
  stringifyWithBigintReplacer := fun _ => Except.error "circular structure"
  convertFormat := fun raw d => raw ++ "@" ++ toString d

/-- The specification's trailing-comma example text. -/
def exText : String :=
  "[\x7b\"type\":\"function\",\"name\":\"f\",\"inputs\":[],\x7d,]"

/-- The catalog entry the example text denotes after repair. -/
def exEntry : Json :=
  Json.obj [("type", Json.str "function"), ("name", Json.str "f"),
            ("inputs", Json.arr [])]

/-- A text whose only flaw is a trailing comma separated from its closing
bracket by a space: the comma does not immediately precede the closer. -/
def badCommaText : String := "[1, ]"

/-- A state holding a previously parsed catalog and a previous parse
error, about to parse `badCommaText`. -/
def dirtyCommaState : AppState :=
  { baseState with
    abiText := badCommaText
    abi := [Json.str "stale"]
    parseError := some "old error" }

/-- A state holding a previously parsed catalog and a previous parse
error, about to parse the specification's example text. -/
def exState : AppState :=
  { baseState with
    abiText := exText
    abi := [Json.str "stale"]
    parseError := some "old error" }

/-- A state holding a previously parsed catalog, about to parse an
unrecoverably malformed text. -/
def dirtyFailState : AppState :=
  { baseState with
    abiText := "[1"
    abi := [exEntry]
    parseError := none }

/-- The initial loading-toast effect of an invocation. -/
def loadEffs (fn : AbiItem) : List Effect :=
  [Effect.toastLoading
    (if isReadOnlyFn fn then "Querying " ++ optStr fn.name ++ "..."
     else "Sending transaction " ++ optStr fn.name ++ "...")]

/-! ### Helper lemmas -/

/-- Tail form of the comma join, mirroring `String.intercalate.go`. -/
def joinCommaTail : List String → String
  | [] => ""
  | t :: rest => "," ++ t ++ joinCommaTail rest

theorem intercalate_go_spec (l : List String) : ∀ acc : String,
    String.intercalate.go acc "," l = acc ++ joinCommaTail l := by
  induction l with
  | nil => intro acc; simp [String.intercalate.go, joinCommaTail]
  | cons t rest ih =>
    intro acc
    rw [show String.intercalate.go acc "," (t :: rest) =
          String.intercalate.go (acc ++ "," ++ t) "," rest from rfl, ih]
    simp [joinCommaTail, String.append_assoc]

theorem joinComma_aux : ∀ (rest : List String) (t : String),
    t ++ joinCommaTail rest = joinComma (t :: rest)
  | [], t => by simp [joinCommaTail, joinComma]
  | u :: r2, t => by
    have h := joinComma_aux r2 u
    simp [joinCommaTail, joinComma, ← h, String.append_assoc]

theorem intercalate_comma (l : List String) :
    String.intercalate "," l = joinComma l := by
  cases l with
  | nil => rfl
  | cons t rest =>
    rw [show String.intercalate "," (t :: rest) =
          String.intercalate.go t "," rest from rfl,
        intercalate_go_spec, joinComma_aux]

theorem pushLog_frame (s : AppState) (msg : String) :
    (pushLog s msg).provider = s.provider ∧
    (pushLog s msg).signer = s.signer ∧
    (pushLog s msg).account = s.account ∧
    (pushLog s msg).chainId = s.chainId ∧
    (pushLog s msg).hasEthereum = s.hasEthereum ∧
    (pushLog s msg).abiText = s.abiText ∧
    (pushLog s msg).contractAddress = s.contractAddress ∧
    (pushLog s msg).abi = s.abi ∧
    (pushLog s msg).parseError = s.parseError ∧
    (pushLog s msg).paramsState = s.paramsState := by
  simp [pushLog]

theorem pushLog_logs (s : AppState) (msg : String) :
    (pushLog s msg).logs = ([s.now ++ " - " ++ msg] ++ s.logs).take 200 := by
  simp [pushLog]

theorem pushLog_pushLog_logs (s : AppState) (m1 m2 : String) :
    (pushLog (pushLog s m1) m2).logs =
      ([(pushLog s m1).now ++ " - " ++ m2, s.now ++ " - " ++ m1] ++ s.logs).take 200 := by
  simp [pushLog, List.take_take]

theorem floatValQ_pos_iff (p : Int × Int) : 0 < floatValQ p ↔ 0 < p.1 := by
  unfold floatValQ
  have hz : (0 : ℚ) < (10 : ℚ) ^ p.2 := zpow_pos (by norm_num) p.2
  constructor
  · intro h
    by_contra hm
    push_neg at hm
    have hmq : (p.1 : ℚ) ≤ 0 := by exact_mod_cast hm
    nlinarith
  · intro h
    have hmq : (0 : ℚ) < (p.1 : ℚ) := by exact_mod_cast h
    positivity

theorem posLtMillionB_iff (p : Int × Int) :
    posLtMillionB p = true ↔ (floatValQ p < 1000000 ∧ 0 < floatValQ p) := by
  rw [floatValQ_pos_iff]
  obtain ⟨m, e⟩ := p
  unfold posLtMillionB floatValQ
  simp only [Bool.and_eq_true, decide_eq_true_eq]
  constructor
  · rintro ⟨hlt, hpos⟩
    refine ⟨?_, hpos⟩
    split at hlt
    case isTrue he =>
      rw [decide_eq_true_eq] at hlt
      obtain ⟨n, hn⟩ := Int.eq_ofNat_of_zero_le he
      rw [hn, Int.toNat_ofNat] at hlt
      rw [hn, zpow_natCast]
      calc (m : ℚ) * (10 : ℚ) ^ n = ((m * 10 ^ n : ℤ) : ℚ) := by push_cast; ring
        _ < 1000000 := by exact_mod_cast hlt
    case isFalse he =>
      rw [decide_eq_true_eq] at hlt
      push_neg at he
      have hpj : e = -(((-e).toNat : ℕ) : ℤ) := by omega
      rw [hpj, zpow_neg, zpow_natCast]
      have hc : (0 : ℚ) < (10 : ℚ) ^ (-e).toNat := by positivity
      rw [← div_eq_mul_inv, div_lt_iff₀ hc]
      calc (m : ℚ) < ((1000000 * 10 ^ (-e).toNat : ℤ) : ℚ) := by exact_mod_cast hlt
        _ = 1000000 * (10 : ℚ) ^ (-e).toNat := by push_cast; ring
  · rintro ⟨hlt, hpos⟩
    refine ⟨?_, hpos⟩
    split
    case isTrue he =>
      rw [decide_eq_true_eq]
      obtain ⟨n, hn⟩ := Int.eq_ofNat_of_zero_le he
      rw [hn, zpow_natCast] at hlt
      rw [hn, Int.toNat_ofNat]
      have hq : ((m * 10 ^ n : ℤ) : ℚ) < 1000000 := by push_cast; nlinarith [hlt]
      exact_mod_cast hq
    case isFalse he =>
      rw [decide_eq_true_eq]
      push_neg at he
      have hpj : e = -(((-e).toNat : ℕ) : ℤ) := by omega
      rw [hpj, zpow_neg, zpow_natCast] at hlt
      have hc : (0 : ℚ) < (10 : ℚ) ^ (-e).toNat := by positivity
      rw [← div_eq_mul_inv, div_lt_iff₀ hc] at hlt
      have hq : (m : ℚ) < ((1000000 * 10 ^ (-e).toNat : ℤ) : ℚ) := by push_cast; nlinarith [hlt]
      exact_mod_cast hq

theorem cf_noProvider (h : HostStr) (s : AppState) (fn : AbiItem)
    (o : DispatchOracle) (hE : s.hasEthereum = false) :
    callFunction h s fn o =
      catchCall s (loadEffs fn) "Please install MetaMask first" := by
  unfold callFunction loadEffs
  rw [hE]
  simp

theorem cf_noAccount (h : HostStr) (s : AppState) (fn : AbiItem)
    (o : DispatchOracle) (hE : s.hasEthereum = true)
    (hA : (s.account == none) = true) :
    callFunction h s fn o =
      catchCall s (loadEffs fn) "Please connect wallet first" := by
  unfold callFunction loadEffs
  rw [hE, hA]
  simp

theorem cf_noAddress (h : HostStr) (s : AppState) (fn : AbiItem)
    (o : DispatchOracle) (hE : s.hasEthereum = true)
    (hA : (s.account == none) = false)
    (hC : (s.contractAddress == "") = true) :
    callFunction h s fn o =
      catchCall s (loadEffs fn) "Please enter contract address" := by
  unfold callFunction loadEffs
  rw [hE, hA, hC]
  simp

theorem cf_signerErr (h : HostStr) (s : AppState) (fn : AbiItem)
    (o : DispatchOracle) (e : String) (hE : s.hasEthereum = true)
    (hA : (s.account == none) = false)
    (hC : (s.contractAddress == "") = false)
    (hS : o.signerResult = Except.error e) :
    callFunction h s fn o =
      catchCall s
        (loadEffs fn ++ [Effect.newBrowserProvider, Effect.getSigner]) e := by
  unfold callFunction loadEffs
  rw [hE, hA, hC, hS]
  simp

theorem cf_argsErr (h : HostStr) (s : AppState) (fn : AbiItem)
    (o : DispatchOracle) (e : String) (hE : s.hasEthereum = true)
    (hA : (s.account == none) = false)
    (hC : (s.contractAddress == "") = false)
    (hS : o.signerResult = Except.ok ())
    (hArgs : coerceArgs s (getFnKey fn) (fn.inputs.getD []) 0 = Except.error e) :
    callFunction h s fn o =
      catchCall s
        (loadEffs fn ++ [Effect.newBrowserProvider, Effect.getSigner]) e := by
  unfold callFunction loadEffs
  rw [hE, hA, hC, hS, hArgs]
  simp

theorem cf_readErr (h : HostStr) (s : AppState) (fn : AbiItem)
    (o : DispatchOracle) (args : List Coerced) (e : String)
    (hE : s.hasEthereum = true) (hA : (s.account == none) = false)
    (hC : (s.contractAddress == "") = false)
    (hS : o.signerResult = Except.ok ())
    (hArgs : coerceArgs s (getFnKey fn) (fn.inputs.getD []) 0 = Except.ok args)
    (hRO : isReadOnlyFn fn = true)
    (hCr : o.callResult = Except.error e) :
    callFunction h s fn o =
      catchCall s
        (loadEffs fn ++ [Effect.newBrowserProvider, Effect.getSigner,
          Effect.mkContract true, Effect.readCall (optStr fn.name) args]) e := by
  unfold callFunction loadEffs
  rw [hE, hA, hC, hS, hArgs, hRO, hCr]
  simp

theorem cf_readOk (h : HostStr) (s : AppState) (fn : AbiItem)
    (o : DispatchOracle) (args : List Coerced) (res : JsValue)
    (hE : s.hasEthereum = true) (hA : (s.account == none) = false)
    (hC : (s.contractAddress == "") = false)
    (hS : o.signerResult = Except.ok ())
    (hArgs : coerceArgs s (getFnKey fn) (fn.inputs.getD []) 0 = Except.ok args)
    (hRO : isReadOnlyFn fn = true)
    (hCr : o.callResult = Except.ok res) :
    callFunction h s fn o =
      (pushLog s ("Function " ++ optStr fn.name ++ " result: " ++
         stringifyResult h s.contractAddress res fn.name),
       loadEffs fn ++ [Effect.newBrowserProvider, Effect.getSigner,
         Effect.mkContract true, Effect.readCall (optStr fn.name) args,
         Effect.toastSuccess ("Query success! Result: " ++
           (if strLengthGt (stringifyResult h s.contractAddress res fn.name) 50
            then strSlice (stringifyResult h s.contractAddress res fn.name) 50 ++ "..."
            else stringifyResult h s.contractAddress res fn.name))],
       Outcome.readSuccess (stringifyResult h s.contractAddress res fn.name)) := by
  unfold callFunction loadEffs
  rw [hE, hA, hC, hS, hArgs, hRO, hCr]
  simp

theorem cf_sendErr (h : HostStr) (s : AppState) (fn : AbiItem)
    (o : DispatchOracle) (args : List Coerced) (e : String)
    (hE : s.hasEthereum = true) (hA : (s.account == none) = false)
    (hC : (s.contractAddress == "") = false)
    (hS : o.signerResult = Except.ok ())
    (hArgs : coerceArgs s (getFnKey fn) (fn.inputs.getD []) 0 = Except.ok args)
    (hRO : isReadOnlyFn fn = false)
    (hSd : o.sendResult = Except.error e) :
    callFunction h s fn o =
      catchCall s
        (loadEffs fn ++ [Effect.newBrowserProvider, Effect.getSigner,
          Effect.mkContract false,
          Effect.toastLoading "Waiting for user confirmation...",
          Effect.sendTx (optStr fn.name) args]) e := by
  unfold callFunction loadEffs
  rw [hE, hA, hC, hS, hArgs, hRO, hSd]
  simp

theorem cf_waitErr (h : HostStr) (s : AppState) (fn : AbiItem)
    (o : DispatchOracle) (args : List Coerced) (hash e : String)
    (hE : s.hasEthereum = true) (hA : (s.account == none) = false)
    (hC : (s.contractAddress == "") = false)
    (hS : o.signerResult = Except.ok ())
    (hArgs : coerceArgs s (getFnKey fn) (fn.inputs.getD []) 0 = Except.ok args)
    (hRO : isReadOnlyFn fn = false)
    (hSd : o.sendResult = Except.ok hash)
    (hW : o.waitResult = Except.error e) :
    callFunction h s fn o =
      catchCall (pushLog s ("Transaction sent, txHash: " ++ hash))
        (loadEffs fn ++ [Effect.newBrowserProvider, Effect.getSigner,
          Effect.mkContract false,
          Effect.toastLoading "Waiting for user confirmation...",
          Effect.sendTx (optStr fn.name) args,
          Effect.toastLoading ("Transaction sent, waiting for confirmation... (" ++
            strSlice hash 10 ++ "...)"),
          Effect.waitConfirm 1]) e := by
  unfold callFunction loadEffs
  rw [hE, hA, hC, hS, hArgs, hRO, hSd, hW]
  simp

theorem cf_writeOk (h : HostStr) (s : AppState) (fn : AbiItem)
    (o : DispatchOracle) (args : List Coerced) (hash : String)
    (rcpt : Option Receipt)
    (hE : s.hasEthereum = true) (hA : (s.account == none) = false)
    (hC : (s.contractAddress == "") = false)
    (hS : o.signerResult = Except.ok ())
    (hArgs : coerceArgs s (getFnKey fn) (fn.inputs.getD []) 0 = Except.ok args)
    (hRO : isReadOnlyFn fn = false)
    (hSd : o.sendResult = Except.ok hash)
    (hW : o.waitResult = Except.ok rcpt) :
    callFunction h s fn o =
      (pushLog (pushLog s ("Transaction sent, txHash: " ++ hash))
         ("Transaction confirmed: blockNumber=" ++
           (match rcpt with
            | none => "undefined"
            | some r => r.blockNumber) ++ ", status=" ++
           (match rcpt with
            | none => "undefined"
            | some r => r.status)),
       loadEffs fn ++ [Effect.newBrowserProvider, Effect.getSigner,
         Effect.mkContract false,
         Effect.toastLoading "Waiting for user confirmation...",
         Effect.sendTx (optStr fn.name) args,
         Effect.toastLoading ("Transaction sent, waiting for confirmation... (" ++
           strSlice hash 10 ++ "...)"),
         Effect.waitConfirm 1,
         Effect.toastSuccess "Transaction successful!"],
       Outcome.writeSuccess) := by
  unfold callFunction loadEffs
  rw [hE, hA, hC, hS, hArgs, hRO, hSd]
  simp only [hW]
  simp
  cases rcpt <;> rfl

/-! ### The claims -/

/-- C8: for every catalog entry, `getFnKey` is a pure total function
returning the name (absent treated as `""`), an opening parenthesis, the
entry's input types joined by commas (absent list treated as empty), and
a closing parenthesis; an entry with neither name nor inputs yields
`"()"`, and `transfer(address, uint256)` yields
`"transfer(address,uint256)"`. -/
theorem c8_fn_key_derivation :
    (∀ fn : AbiItem,
       getFnKey fn =
         fn.name.getD "" ++ "(" ++
           joinComma ((fn.inputs.getD []).map AbiInput.type) ++ ")") ∧
    getFnKey { type := "function" } = "()" ∧
    getFnKey { type := "function", name := some "transfer",
               inputs := some [{ name := some "to", type := "address" },
                               { name := some "amount", type := "uint256" }] } =
      "transfer(address,uint256)" := by
  refine ⟨fun fn => ?_, rfl, rfl⟩
  unfold getFnKey
  rw [intercalate_comma]

/-- C6: the result formatter is total — for every host serializer
behaviour (including one that always throws), every value and every
optional function name it returns a display string, and that string is
the try-block result when the body succeeded and the generic
stringification `String(res)` when anything inside failed. -/
theorem c6_formatter_never_throws (h : HostStr) (addr : String)
    (v : JsValue) (fname : Option String) :
    stringifyResult h addr v fname =
      match stringifyTry h addr v fname with
      | Except.ok s => s
      | Except.error _ => jsToString v := by
  cases v with
  | jArr xs =>
    cases hs : h.stringifyStrings (stringifyItems h addr xs fname) <;>
      simp [stringifyResult, stringifyTry, hs]
  | jBigInt i =>
    cases hb : isBalanceName fname <;>
      simp [stringifyResult, stringifyTry, hb]
  | jObj t =>
    cases hb : isBalanceName fname <;>
      simp [stringifyResult, stringifyTry, hasToStringProp, hb]
  | jNull => rfl
  | jUndef => rfl
  | jBool b => rfl
  | jNum r => rfl
  | jStr s => rfl

/-- C10: whenever the parse attempt fails (invalid JSON after repair, or
a non-array top level), the catalog is reset to the empty list — a
previously parsed catalog is discarded and the rendered function list
becomes empty — and the error message is recorded. -/
theorem c10_parse_failure_resets_catalog (s : AppState) (m : String)
    (hfail : abiParseResult s.abiText = Except.error m) :
    (tryParseAbi s).abi = [] ∧
    functionsOf (tryParseAbi s).abi = [] ∧
    (tryParseAbi s).parseError = some m := by
  unfold tryParseAbi
  rw [hfail]
  simp [pushLog, functionsOf]

/-- C10 witness: parsing the malformed text `"[1"` over a state holding a
previously parsed one-entry catalog empties the catalog. -/
theorem c10_witness :
    (tryParseAbi dirtyFailState).abi = [] ∧
    functionsOf (tryParseAbi dirtyFailState).abi = [] ∧
    (tryParseAbi dirtyFailState).parseError =
      some "Unexpected end of JSON input" :=
  c10_parse_failure_resets_catalog dirtyFailState
    "Unexpected end of JSON input" rfl

/-- C5 counterexample: the claim describes the repair as stripping only
commas that *immediately* precede a closing bracket or brace, and asserts
that every input that remains invalid under that repair fails with a
ParseError. The text `"[1, ]"` is unchanged by the immediate-comma repair
and is invalid JSON, yet the component parses it successfully (the
source's regex `/,\s*([\]})/g` also strips commas separated from the
closer by whitespace), replacing the catalog and clearing the previous
error. -/
theorem c5_counterexample :
    String.mk (stripImmediateCommas badCommaText.data) = badCommaText ∧
    isErr (jsonParse badCommaText) = true ∧
    (tryParseAbi dirtyCommaState).parseError = none ∧
    (tryParseAbi dirtyCommaState).abi = [Json.num "1"] :=
  ⟨rfl, rfl, rfl, rfl⟩

/-- C5 (amended): parsing interface text first strips every comma that is
followed by optional whitespace and then a closing bracket or brace
(removing that whitespace as well), and then requires strictly well-formed
JSON whose top-level value is an array: if the repaired text parses as a
JSON array the parse succeeds, replaces the catalog wholesale and clears
any previous parse error; if the repaired text is invalid JSON the parse
fails carrying the underlying message; and if it parses to a non-array
the parse fails with the message `"ABI is not an array"`. -/
theorem c5_lenient_parse (s : AppState) :
    (∀ xs, jsonParse (stripTrailingCommas s.abiText) = Except.ok (Json.arr xs) →
       (tryParseAbi s).abi = xs ∧ (tryParseAbi s).parseError = none) ∧
    (∀ m, jsonParse (stripTrailingCommas s.abiText) = Except.error m →
       (tryParseAbi s).parseError = some m) ∧
    (∀ j, jsonParse (stripTrailingCommas s.abiText) = Except.ok j →
       (∀ xs, j ≠ Json.arr xs) →
       (tryParseAbi s).parseError = some "ABI is not an array") := by
  refine ⟨fun xs hx => ?_, fun m hm => ?_, fun j hj hne => ?_⟩
  · unfold tryParseAbi abiParseResult
    rw [hx]
    simp [pushLog]
  · unfold tryParseAbi abiParseResult
    rw [hm]
    simp [pushLog]
  · unfold tryParseAbi abiParseResult
    rw [hj]
    cases j with
    | arr xs => exact absurd rfl (hne xs)
    | null => simp [pushLog]
    | bool b => simp [pushLog]
    | num l => simp [pushLog]
    | str t => simp [pushLog]
    | obj kvs => simp [pushLog]

/-- C5 witness: the specification's trailing-comma example
`[{"type":"function","name":"f","inputs":[],},]` parses successfully over
a state holding a stale catalog and a previous parse error, yielding the
single entry named `f` and clearing the error. -/
theorem c5_witness :
    (tryParseAbi exState).abi = [exEntry] ∧
    (tryParseAbi exState).parseError = none :=
  (c5_lenient_parse exState).1 [exEntry] rfl

/-- C4 counterexample: the claim promises pass-through for every
*non-empty* raw text outside the scaling guard, but whitespace-only raw
text is non-empty and is still rejected with `EmptyValue`. -/
theorem c4_counterexample :
    ¬ (" " = "") ∧
    parseParamValue "0x1" "uint256" " " (some "to") =
      Except.error "Empty value" :=
  ⟨by decide, rfl⟩

/-- C4 (amended): for every integer-typed parameter whose raw text is not
empty or whitespace-only, if the name matches no amount keyword, or the
raw text contains no decimal point and does not parse as a positive
number strictly below 1,000,000, coercion returns the raw text
unchanged. -/
theorem c4_passthrough (addr t raw : String) (nm : Option String)
    (hint : (strStarts t "uint" || strStarts t "int") = true)
    (hne : ¬ jsTrim raw = "")
    (hcase : isAmountParam nm = false ∨
       (strIncludes raw "." = false ∧
        ∀ q, parseFloatQ raw = some q → ¬ (0 < q ∧ q < 1000000))) :
    parseParamValue addr t raw nm = Except.ok (Coerced.str raw) := by
  have hguard : isAmountParam nm = false ∨ amountGuard raw = false := by
    rcases hcase with hk | ⟨hdot, hq⟩
    · exact Or.inl hk
    · refine Or.inr ?_
      unfold amountGuard
      rw [hdot]
      cases hpf : parseFloatParts raw with
      | none => simp
      | some p =>
        have hv := hq (floatValQ p) (by simp [parseFloatQ, hpf])
        simp only [Bool.false_or]
        by_contra hb
        rw [Bool.not_eq_false] at hb
        have hiff := (posLtMillionB_iff p).mp hb
        exact hv ⟨hiff.2, hiff.1⟩
  unfold parseParamValue
  rw [if_pos hint]
  have hbeq : (jsTrim raw == "") = false := by
    simp [hne]
  rw [hbeq]
  rcases hguard with hg | hg <;> simp [hg]

/-- C4 witness: type `uint256`, name `amount`, raw `"2000000"`
(≥ 1,000,000 and without a decimal point) passes through unchanged. -/
theorem c4_witness :
    parseParamValue "0x1111111111111111111111111111111111111111" "uint256"
      "2000000" (some "amount") = Except.ok (Coerced.str "2000000") := by
  refine c4_passthrough _ _ _ _ (by decide) (by decide)
    (Or.inr ⟨by decide, fun q hq => ?_⟩)
  have hp : parseFloatQ "2000000" = some (floatValQ (2000000, 0)) := by
    have hparts : parseFloatParts "2000000" = some (2000000, 0) := by decide
    rw [parseFloatQ, hparts]
    rfl
  rw [hp] at hq
  have hqv : q = floatValQ (2000000, 0) := by
    injection hq with h
    exact h.symm
  rw [hqv]
  unfold floatValQ
  norm_num

/-- C3 counterexample: the claim asserts that the EmptyValue failure
aborts the invocation before *any* external call to the wallet provider,
but the dispatcher refreshes the provider and fetches the signing handle
(source lines 671-672) before coercing any parameter (lines 677-681): a
`transfer` invocation with its `uint256` field left empty settles as
`failure "Empty value"` with the signing-handle fetch already in its
trace. -/
theorem c3_counterexample :
    Effect.getSigner ∈ (callFunction idHost baseState writeFn okOracle).2.1 ∧
    (callFunction idHost baseState writeFn okOracle).2.2 =
      Outcome.failure "Empty value" := by
  constructor
  · decide
  · rfl

/-- C3 (amended): coercion of an integer-typed parameter whose raw text
is empty or whitespace-only fails with the EmptyValue error, and when the
preconditions hold and coercion of any parameter fails, the invocation
settles as that failure with no contract interaction — no read call, no
transaction, no confirmation wait — although the provider/signer refresh
(an external wallet interaction) has already happened. -/
theorem c3_empty_value_rejection :
    (∀ (addr t raw : String) (nm : Option String),
       (strStarts t "uint" || strStarts t "int") = true →
       jsTrim raw = "" →
       parseParamValue addr t raw nm = Except.error "Empty value") ∧
    (∀ (h : HostStr) (s : AppState) (fn : AbiItem) (o : DispatchOracle)
       (e : String),
       s.hasEthereum = true →
       (s.account == none) = false →
       (s.contractAddress == "") = false →
       o.signerResult = Except.ok () →
       coerceArgs s (getFnKey fn) (fn.inputs.getD []) 0 = Except.error e →
       (callFunction h s fn o).2.2 = Outcome.failure e ∧
       ∀ ef ∈ (callFunction h s fn o).2.1,
         isReadEff ef = false ∧ isWriteEff ef = false) := by
  constructor
  · intro addr t raw nm hint hraw
    unfold parseParamValue
    rw [if_pos hint]
    simp [hraw]
  · intro h s fn o e hE hAcc hAddr hSig hCo
    have hcall : callFunction h s fn o =
        catchCall s
          ([Effect.toastLoading
             (if isReadOnlyFn fn then "Querying " ++ optStr fn.name ++ "..."
              else "Sending transaction " ++ optStr fn.name ++ "...")] ++
           [Effect.newBrowserProvider, Effect.getSigner]) e := by
      unfold callFunction
      rw [hE, hAcc, hAddr, hSig, hCo]
      simp
    rw [hcall]
    refine ⟨rfl, ?_⟩
    intro ef hef
    simp only [catchCall, List.mem_append, List.mem_singleton,
      List.mem_cons, List.not_mem_nil, or_false] at hef
    rcases hef with (rfl | rfl | rfl) | rfl <;> exact ⟨rfl, rfl⟩

/-- C3 witness: whitespace-only raw text is rejected by the coercion
engine, and a connected `transfer` invocation whose fields are blank
aborts with the EmptyValue failure. -/
theorem c3_witness :
    parseParamValue "0x1" "uint256" "   " none = Except.error "Empty value" ∧
    (callFunction idHost baseState writeFn okOracle).2.2 =
      Outcome.failure "Empty value" :=
  ⟨c3_empty_value_rejection.1 "0x1" "uint256" "   " none (by decide) (by decide),
   (c3_empty_value_rejection.2 idHost baseState writeFn okOracle "Empty value"
      rfl rfl rfl rfl rfl).1⟩

/-- C2 counterexample: the claim asserts that a `view`/`pure` invocation
requests no signing handle, but the dispatcher awaits
`currentProvider.getSigner()` unconditionally (source line 672) before
branching: a successful `view` invocation carries the signing-handle
fetch in its trace. -/
theorem c2_counterexample :
    isReadOnlyFn viewFn = true ∧
    Effect.getSigner ∈ (callFunction idHost baseState viewFn okOracle).2.1 ∧
    (callFunction idHost baseState viewFn okOracle).2.2 =
      Outcome.readSuccess "ok" := by
  have hc := cf_readOk idHost baseState viewFn okOracle [Coerced.str ""]
    (JsValue.jStr "ok") rfl rfl rfl rfl rfl rfl rfl
  refine ⟨rfl, ?_, ?_⟩
  · rw [hc]
    simp [loadEffs]
  · rw [hc]
    simp [stringifyResult, jsToString]

/-- C2 (amended): entries marked `view`/`pure` take the read path — the
contract is bound to the read-only provider handle, no transaction is
sent and no confirmation awaited (though the signing handle is still
fetched unconditionally beforehand); every other entry takes the write
path — the contract is bound to the signing handle, no read call is made,
and a successful settlement requires a sent transaction and the
one-confirmation wait to have resolved; every confirmation wait in any
trace asks for exactly one confirmation. -/
theorem c2_read_write_routing (h : HostStr) (s : AppState) (fn : AbiItem)
    (o : DispatchOracle) :
    (isReadOnlyFn fn = true →
       (∀ e ∈ (callFunction h s fn o).2.1, isWriteEff e = false) ∧
       (∀ b ∈ mkContractFlags (callFunction h s fn o).2.1, b = true)) ∧
    (isReadOnlyFn fn = false →
       (∀ e ∈ (callFunction h s fn o).2.1, isReadEff e = false) ∧
       (∀ b ∈ mkContractFlags (callFunction h s fn o).2.1, b = false) ∧
       ((callFunction h s fn o).2.2 = Outcome.writeSuccess →
          (∃ nm args, Effect.sendTx nm args ∈ (callFunction h s fn o).2.1) ∧
          Effect.waitConfirm 1 ∈ (callFunction h s fn o).2.1 ∧
          ∃ rc, o.waitResult = Except.ok rc)) ∧
    (∀ n, Effect.waitConfirm n ∈ (callFunction h s fn o).2.1 → n = 1) := by
  cases hE : s.hasEthereum with
  | false =>
    rw [cf_noProvider h s fn o hE]
    simp [catchCall, loadEffs, isWriteEff, isReadEff, mkContractFlags]
  | true =>
  cases hA : s.account == none with
  | true =>
    rw [cf_noAccount h s fn o hE hA]
    simp [catchCall, loadEffs, isWriteEff, isReadEff, mkContractFlags]
  | false =>
  cases hC : s.contractAddress == "" with
  | true =>
    rw [cf_noAddress h s fn o hE hA hC]
    simp [catchCall, loadEffs, isWriteEff, isReadEff, mkContractFlags]
  | false =>
  cases hS : o.signerResult with
  | error e =>
    rw [cf_signerErr h s fn o e hE hA hC hS]
    simp [catchCall, loadEffs, isWriteEff, isReadEff, mkContractFlags]
  | ok u =>
  cases u
  cases hArgs : coerceArgs s (getFnKey fn) (fn.inputs.getD []) 0 with
  | error e =>
    rw [cf_argsErr h s fn o e hE hA hC hS hArgs]
    simp [catchCall, loadEffs, isWriteEff, isReadEff, mkContractFlags]
  | ok args =>
  cases hRO : isReadOnlyFn fn with
  | true =>
    cases hCr : o.callResult with
    | error e =>
      rw [cf_readErr h s fn o args e hE hA hC hS hArgs hRO hCr]
      simp [catchCall, loadEffs, isWriteEff, isReadEff, mkContractFlags, hRO]
    | ok res =>
      rw [cf_readOk h s fn o args res hE hA hC hS hArgs hRO hCr]
      simp [loadEffs, isWriteEff, isReadEff, mkContractFlags, hRO]
  | false =>
    cases hSd : o.sendResult with
    | error e =>
      rw [cf_sendErr h s fn o args e hE hA hC hS hArgs hRO hSd]
      simp [catchCall, loadEffs, isWriteEff, isReadEff, mkContractFlags, hRO]
    | ok hash =>
      cases hW : o.waitResult with
      | error e =>
        rw [cf_waitErr h s fn o args hash e hE hA hC hS hArgs hRO hSd hW]
        simp [catchCall, loadEffs, isWriteEff, isReadEff, mkContractFlags, hRO]
      | ok rcpt =>
        rw [cf_writeOk h s fn o args hash rcpt hE hA hC hS hArgs hRO hSd hW]
        refine ⟨fun hro => ?_,
          fun _ => ⟨?_, ?_, fun _ => ⟨⟨optStr fn.name, args, ?_⟩, ?_, ⟨rcpt, rfl⟩⟩⟩,
          ?_⟩
        · exact Bool.noConfusion hro
        · simp [loadEffs, isReadEff]
        · simp [loadEffs, mkContractFlags]
        · simp [loadEffs]
        · simp [loadEffs]
        · simp [loadEffs]

/-- C2 witness: a `transfer` entry without a mutability tag settles as a
write success, and its trace contains the one-confirmation wait. -/
theorem c2_witness :
    (callFunction idHost writeState writeFn okOracle).2.2 =
      Outcome.writeSuccess ∧
    Effect.waitConfirm 1 ∈ (callFunction idHost writeState writeFn okOracle).2.1 := by
  have hm := (c2_read_write_routing idHost writeState writeFn okOracle).2.1 rfl
  have hsucc : (callFunction idHost writeState writeFn okOracle).2.2 =
      Outcome.writeSuccess := rfl
  exact ⟨hsucc, (hm.2.2 hsucc).2.1⟩

theorem catchCall_state_frame (s : AppState) (effs : List Effect) (m : String) :
    (catchCall s effs m).1.provider = s.provider ∧
    (catchCall s effs m).1.signer = s.signer ∧
    (catchCall s effs m).1.account = s.account ∧
    (catchCall s effs m).1.chainId = s.chainId ∧
    (catchCall s effs m).1.hasEthereum = s.hasEthereum ∧
    (catchCall s effs m).1.abiText = s.abiText ∧
    (catchCall s effs m).1.contractAddress = s.contractAddress ∧
    (catchCall s effs m).1.abi = s.abi ∧
    (catchCall s effs m).1.parseError = s.parseError ∧
    (catchCall s effs m).1.paramsState = s.paramsState ∧
    (∃ msgs : List String, msgs ≠ [] ∧
       (catchCall s effs m).1.logs = (msgs ++ s.logs).take 200) ∧
    (∃ t, Effect.toastError t ∈ (catchCall s effs m).2.1) :=
  ⟨rfl, rfl, rfl, rfl, rfl, rfl, rfl, rfl, rfl, rfl,
   ⟨[s.now ++ " - " ++ ("Call failed: " ++ m)], by simp,
    by simp [catchCall, pushLog]⟩,
   ⟨classifyToast m, by simp [catchCall]⟩⟩

/-- C9: whenever an invocation settles as a failure, the connection state
(provider, signer, account, chain id), the parsed catalog, the parameter
field map, and every other state field except the log are unchanged; the
failure handling appends log entries (at most two: the sent-transaction
entry when a confirmation wait rejected, and the failure entry) and emits
a transient error notification. -/
theorem c9_failure_preserves_state (h : HostStr) (s : AppState)
    (fn : AbiItem) (o : DispatchOracle) (m : String)
    (hfail : (callFunction h s fn o).2.2 = Outcome.failure m) :
    (callFunction h s fn o).1.provider = s.provider ∧
    (callFunction h s fn o).1.signer = s.signer ∧
    (callFunction h s fn o).1.account = s.account ∧
    (callFunction h s fn o).1.chainId = s.chainId ∧
    (callFunction h s fn o).1.hasEthereum = s.hasEthereum ∧
    (callFunction h s fn o).1.abiText = s.abiText ∧
    (callFunction h s fn o).1.contractAddress = s.contractAddress ∧
    (callFunction h s fn o).1.abi = s.abi ∧
    (callFunction h s fn o).1.parseError = s.parseError ∧
    (callFunction h s fn o).1.paramsState = s.paramsState ∧
    (∃ msgs : List String, msgs ≠ [] ∧
       (callFunction h s fn o).1.logs = (msgs ++ s.logs).take 200) ∧
    (∃ t, Effect.toastError t ∈ (callFunction h s fn o).2.1) := by
  rcases Bool.eq_false_or_eq_true s.hasEthereum with hE | hE
  case inr =>
    rw [cf_noProvider h s fn o hE]
    exact catchCall_state_frame s _ _
  case inl =>
  cases hA : s.account == none with
  | true =>
    rw [cf_noAccount h s fn o hE hA]
    exact catchCall_state_frame s _ _
  | false =>
  cases hC : s.contractAddress == "" with
  | true =>
    rw [cf_noAddress h s fn o hE hA hC]
    exact catchCall_state_frame s _ _
  | false =>
  cases hS : o.signerResult with
  | error e =>
    rw [cf_signerErr h s fn o e hE hA hC hS]
    exact catchCall_state_frame s _ _
  | ok u =>
  cases u
  cases hArgs : coerceArgs s (getFnKey fn) (fn.inputs.getD []) 0 with
  | error e =>
    rw [cf_argsErr h s fn o e hE hA hC hS hArgs]
    exact catchCall_state_frame s _ _
  | ok args =>
  cases hRO : isReadOnlyFn fn with
  | true =>
    cases hCr : o.callResult with
    | error e =>
      rw [cf_readErr h s fn o args e hE hA hC hS hArgs hRO hCr]
      exact catchCall_state_frame s _ _
    | ok res =>
      rw [cf_readOk h s fn o args res hE hA hC hS hArgs hRO hCr] at hfail
      cases hfail
  | false =>
    cases hSd : o.sendResult with
    | error e =>
      rw [cf_sendErr h s fn o args e hE hA hC hS hArgs hRO hSd]
      exact catchCall_state_frame s _ _
    | ok hash =>
      cases hW : o.waitResult with
      | error e =>
        rw [cf_waitErr h s fn o args hash e hE hA hC hS hArgs hRO hSd hW]
        refine ⟨rfl, rfl, rfl, rfl, rfl, rfl, rfl, rfl, rfl, rfl,
          ⟨[s.now ++ " - " ++ ("Call failed: " ++ e),
            s.now ++ " - " ++ ("Transaction sent, txHash: " ++ hash)],
           by simp, ?_⟩,
          ⟨classifyToast e, by simp [catchCall]⟩⟩
        show (pushLog (pushLog s ("Transaction sent, txHash: " ++ hash))
          ("Call failed: " ++ e)).logs = _
        rw [pushLog_pushLog_logs]
        simp [pushLog]
      | ok rcpt =>
        rw [cf_writeOk h s fn o args hash rcpt hE hA hC hS hArgs hRO hSd hW] at hfail
        cases hfail

/-- C9 witness: a rejected `transfer` transaction leaves account, chain
id, catalog and field map untouched. -/
theorem c9_witness :
    (callFunction idHost writeState writeFn rejOracle).2.2 =
      Outcome.failure "user rejected action" ∧
    (callFunction idHost writeState writeFn rejOracle).1.account =
      writeState.account ∧
    (callFunction idHost writeState writeFn rejOracle).1.abi =
      writeState.abi ∧
    (callFunction idHost writeState writeFn rejOracle).1.paramsState =
      writeState.paramsState := by
  have hm := c9_failure_preserves_state idHost writeState writeFn rejOracle
    "user rejected action" rfl
  exact ⟨rfl, hm.2.2.1, hm.2.2.2.2.2.2.2.1, hm.2.2.2.2.2.2.2.2.2.1⟩

end Abi
